import Mathlib

/-
Shallow embedding of the ttgen incremental build engine
(src/spec.rs, src/cli.rs, src/render.rs, src/error.rs).

Paths are modelled as strings.  The filesystem and the external
collaborators (serde_json parsing, handlebars rendering) are modelled as
an oracle record FS: each field answers one kind of system call the code
performs.  Filesystem effects performed by the code are logged in a
List Eff so that frame properties (report actions mutate nothing) and
ordering properties (timestamp reads short-circuit) can be stated.
-/

namespace Ttgen

/-- An I/O error, as carried by std::io::Error.  notFound is what
File::open returns on a nonexistent path. -/
inductive IOErr
  | notFound
  | other (code : Nat)
deriving DecidableEq, Repr

/-- The build status of one job: OutputStatus in src/spec.rs. -/
inductive OutputStatus
  | UpToDate
  | FileMissing
  | OutOfDate
  | CannotDetermine (e : IOErr)
deriving DecidableEq, Repr

/-- The closed error enum of src/error.rs (error_impl! expansion).
External library errors (render, json, clap) carry an opaque code. -/
inductive Error
  | ioError (e : IOErr)
  | renderError (code : Nat)
  | jsonError (code : Nat)
  | templateRenderError (code : Nat)
  | clapError (code : Nat)
  | missing (msgs : List String)
deriving DecidableEq, Repr

/-- TemplateDef from src/spec.rs: one generation job. -/
structure TemplateDef where
  name : String
  data : String
  template : String
  output : String
deriving DecidableEq, Repr

/-- One filesystem (or collaborator) operation performed by the code. -/
inductive Eff
  | pathExists (p : String)
  | mtimeRead (p : String)
  | openRead (p : String)
  | createFile (p : String)
  | mkdirs (p : String)
  | removeFile (p : String)
deriving DecidableEq, Repr

/-- Read-only operations: existence checks, metadata reads, opening a
file for reading. -/
def Eff.isRead : Eff → Bool
  | .pathExists _ => true
  | .mtimeRead _ => true
  | .openRead _ => true
  | .createFile _ => false
  | .mkdirs _ => false
  | .removeFile _ => false

/-- The oracle answering every system call the embedded code makes:
ex p       — Path::exists(p);
mtime p    — metadata(p)?.modified() (get_mod_time in src/spec.rs);
openFail p — extra failure of File::open(p) when p exists (permissions);
createFail, mkdirsFail, removeFail — failures of File::create,
fs::create_dir_all, fs::remove_file;
jsonFail p — serde_json parse failure of the data file p;
renderFail p — handlebars failure rendering template p;
parentOf p — Path::parent(p). -/
structure FS where
  ex : String → Bool
  mtime : String → Except IOErr Nat
  openFail : String → Option IOErr
  createFail : String → Option IOErr
  mkdirsFail : String → Option IOErr
  removeFail : String → Option IOErr
  jsonFail : String → Option Nat
  renderFail : String → Option Nat
  parentOf : String → Option String

/-- Result of File::open(p): notFound when the path does not exist,
otherwise whatever extra failure the oracle assigns. -/
def FS.openReadRes (fs : FS) (p : String) : Option IOErr :=
  if fs.ex p then fs.openFail p else some .notFound

/-- validate_files from src/spec.rs, translated as written: in the
non-(true, true) arm the code pushes the template path when
template_exists is TRUE and the data path when data_exists is TRUE
(the conditions are not negated in the source). -/
def validate_files (fs : FS) (s : TemplateDef) : Except (List String) Unit :=
  let data_exists := fs.ex s.data
  let template_exists := fs.ex s.template
  if data_exists && template_exists then
    .ok ()
  else
    .error ((if template_exists then ["template file: " ++ s.template] else []) ++
            (if data_exists then ["data file: " ++ s.data] else []))

/-- up_to_date from src/spec.rs together with the log of the reads it
performs: the existence check on output, then the modification-time
reads of output, data, template, stopping at the first failing read. -/
def up_to_date_eff (fs : FS) (s : TemplateDef) : OutputStatus × List Eff :=
  if !(fs.ex s.output) then
    (.FileMissing, [.pathExists s.output])
  else
    match fs.mtime s.output with
    | .error e => (.CannotDetermine e, [.pathExists s.output, .mtimeRead s.output])
    | .ok output_modified =>
      match fs.mtime s.data with
      | .error e =>
        (.CannotDetermine e,
         [.pathExists s.output, .mtimeRead s.output, .mtimeRead s.data])
      | .ok data_modified =>
        match fs.mtime s.template with
        | .error e =>
          (.CannotDetermine e,
           [.pathExists s.output, .mtimeRead s.output, .mtimeRead s.data,
            .mtimeRead s.template])
        | .ok template_modified =>
          (if output_modified < template_modified ∨ output_modified < data_modified
           then .OutOfDate else .UpToDate,
           [.pathExists s.output, .mtimeRead s.output, .mtimeRead s.data,
            .mtimeRead s.template])

/-- up_to_date from src/spec.rs (the classification alone). -/
def up_to_date (fs : FS) (s : TemplateDef) : OutputStatus :=
  (up_to_date_eff fs s).1

/-- should_build from src/spec.rs: false exactly on UpToDate. -/
def should_build (fs : FS) (s : TemplateDef) : Bool :=
  match up_to_date fs s with
  | .UpToDate => false
  | _ => true

/-- should_build with its read log. -/
def should_build_eff (fs : FS) (s : TemplateDef) : Bool × List Eff :=
  ((match (up_to_date_eff fs s).1 with
    | .UpToDate => false
    | _ => true), (up_to_date_eff fs s).2)

/-- hash_file from src/render.rs: opens the file and hashes its
contents; the only effect visible to the scheduler is the open and its
possible failure. -/
def hash_file_eff (fs : FS) (p : String) : Except Error Unit × List Eff :=
  match fs.openReadRes p with
  | some e => (.error (.ioError e), [.openRead p])
  | none => (.ok (), [.openRead p])

/-- create_root_map from src/render.rs: hashes the data file, hashes
the template file, then opens the data file again and parses it as
JSON.  Fails at the first failing step. -/
def create_root_map_eff (fs : FS) (s : TemplateDef) : Except Error Unit × List Eff :=
  match hash_file_eff fs s.data with
  | (.error e, l) => (.error e, l)
  | (.ok _, l1) =>
    match hash_file_eff fs s.template with
    | (.error e, l2) => (.error e, l1 ++ l2)
    | (.ok _, l2) =>
      match fs.openReadRes s.data with
      | some e => (.error (.ioError e), l1 ++ l2 ++ [.openRead s.data])
      | none =>
        match fs.jsonFail s.data with
        | some c => (.error (.jsonError c), l1 ++ l2 ++ [.openRead s.data])
        | none => (.ok (), l1 ++ l2 ++ [.openRead s.data])

/-- with_writer from src/render.rs: builds the root map, opens the
template and renders it into the given writer. -/
def with_writer_eff (fs : FS) (s : TemplateDef) : Except Error Unit × List Eff :=
  match create_root_map_eff fs s with
  | (.error e, l) => (.error e, l)
  | (.ok _, l1) =>
    match fs.openReadRes s.template with
    | some e => (.error (.ioError e), l1 ++ [.openRead s.template])
    | none =>
      match fs.renderFail s.template with
      | some c => (.error (.templateRenderError c), l1 ++ [.openRead s.template])
      | none => (.ok (), l1 ++ [.openRead s.template])

/-- The function named with in src/render.rs, used by multigen for
every built job.  As in the source, the writer is obtained with
File::open(&spec.output) — a read-only open that fails with notFound
when the output file does not exist; no File::create and no
create_dir_all occur on this path. -/
def with_eff (fs : FS) (s : TemplateDef) : Except Error Unit × List Eff :=
  match fs.openReadRes s.output with
  | some e => (.error (.ioError e), [.openRead s.output])
  | none =>
    match with_writer_eff fs s with
    | (r, l) => (r, .openRead s.output :: l)

/-- box_writer from src/cli.rs: "-" selects stdout; any other path gets
create_dir_all on its parent followed by File::create. -/
def box_writer_eff (fs : FS) (out : String) : Except Error Unit × List Eff :=
  if out = "-" then
    (.ok (), [])
  else
    match fs.parentOf out with
    | some p =>
      match fs.mkdirsFail p with
      | some e => (.error (.ioError e), [.mkdirs p])
      | none =>
        match fs.createFail out with
        | some e => (.error (.ioError e), [.mkdirs p, .createFile out])
        | none => (.ok (), [.mkdirs p, .createFile out])
    | none =>
      match fs.createFail out with
      | some e => (.error (.ioError e), [.createFile out])
      | none => (.ok (), [.createFile out])

/-- generate from src/cli.rs (single-job path): box_writer on OUTPUT,
then TemplateDef::new — which runs validate_files — then
render::with_writer.  The two pathExists effects are the existence
checks validate_files performs on data and template. -/
def generate_eff (fs : FS) (data template output : String) :
    Except Error Unit × List Eff :=
  match box_writer_eff fs output with
  | (.error e, l) => (.error e, l)
  | (.ok _, l1) =>
    let s := TemplateDef.mk "Anonymous" data template output
    match validate_files fs s with
    | .error m =>
      (.error (.missing m), l1 ++ [.pathExists data, .pathExists template])
    | .ok _ =>
      match with_writer_eff fs s with
      | (r, l2) => (r, l1 ++ [.pathExists data, .pathExists template] ++ l2)

/-- Per-job outcome of a batch action. -/
inductive Outcome
  | success
  | failed (e : Error)
  | skipped
  | removed
  | removeFailed (e : IOErr)
deriving DecidableEq, Repr

/-- Eligibility test of multigen and report multigen in src/cli.rs:
force short-circuits, otherwise should_build runs (and reads). -/
def eligible_eff (fs : FS) (force : Bool) (s : TemplateDef) : Bool × List Eff :=
  if force then (true, []) else should_build_eff fs s

/-- Eligibility as a plain predicate. -/
def eligible (fs : FS) (force : Bool) (s : TemplateDef) : Bool :=
  force || should_build fs s

/-- One multigen job from src/cli.rs: eligible jobs go to render::with
and end in success or failed; ineligible jobs are reported skipped. -/
def multigen_job (fs : FS) (force : Bool) (s : TemplateDef) : Outcome × List Eff :=
  match eligible_eff fs force s with
  | (true, l) =>
    match with_eff fs s with
    | (.ok _, l2) => (.success, l ++ l2)
    | (.error e, l2) => (.failed e, l ++ l2)
  | (false, l) => (.skipped, l)

/-- multigen from src/cli.rs: one outcome per job of the batch. -/
def multigen_run (fs : FS) (force : Bool) (specs : List TemplateDef) :
    List (TemplateDef × Outcome) :=
  specs.map fun s => (s, (multigen_job fs force s).1)

/-- The filesystem effects of a multigen batch (per-job logs joined). -/
def multigen_effs (fs : FS) (force : Bool) (specs : List TemplateDef) : List Eff :=
  (specs.map fun s => (multigen_job fs force s).2).flatten

/-- The jobs multigen hands to the Renderer: exactly the eligible ones
(the filter_map in src/cli.rs). -/
def multigen_invocations (fs : FS) (force : Bool) (specs : List TemplateDef) :
    List TemplateDef :=
  specs.filter fun s => (eligible_eff fs force s).1

/-- One clean job from src/cli.rs: fs::remove_file on the output,
failure turned into a reported per-job outcome. -/
def clean_job (fs : FS) (s : TemplateDef) : Outcome × List Eff :=
  match fs.removeFail s.output with
  | none => (.removed, [.removeFile s.output])
  | some e => (.removeFailed e, [.removeFile s.output])

/-- clean from src/cli.rs: one removal outcome per job. -/
def clean_run (fs : FS) (specs : List TemplateDef) : List (TemplateDef × Outcome) :=
  specs.map fun s => (s, (clean_job fs s).1)

/-- The filesystem effects of a clean batch. -/
def clean_effs (fs : FS) (specs : List TemplateDef) : List Eff :=
  (specs.map fun s => (clean_job fs s).2).flatten

/-- report clean from src/cli.rs: prints a would-remove line when the
output exists; only an existence check is performed. -/
def report_clean_job (fs : FS) (s : TemplateDef) : Option String × List Eff :=
  (if fs.ex s.output then some ("Would remove: " ++ s.output) else none,
   [.pathExists s.output])

/-- Effects of report clean over a batch. -/
def report_clean_effs (fs : FS) (specs : List TemplateDef) : List Eff :=
  (specs.map fun s => (report_clean_job fs s).2).flatten

/-- report multigen from src/cli.rs: the same eligibility test as
multigen, printing a would-build or would-skip line. -/
def report_multigen_job (fs : FS) (force : Bool) (s : TemplateDef) :
    String × List Eff :=
  match eligible_eff fs force s with
  | (true, l) => ("Would build: " ++ s.output, l)
  | (false, l) => ("Would skip: " ++ s.output, l)

/-- Effects of report multigen over a batch. -/
def report_multigen_effs (fs : FS) (force : Bool) (specs : List TemplateDef) :
    List Eff :=
  (specs.map fun s => (report_multigen_job fs force s).2).flatten

/-- report count from src/cli.rs: prints the batch size, touching no
job at all. -/
def report_count_run (specs : List TemplateDef) : String × List Eff :=
  (toString specs.length, [])

/-- State transition of one effect on the filesystem: reads change
nothing; a successful create, mkdirs or remove updates existence. -/
def applyEff (fs : FS) : Eff → FS
  | .pathExists _ => fs
  | .mtimeRead _ => fs
  | .openRead _ => fs
  | .mkdirs p =>
    if (fs.mkdirsFail p).isSome then fs
    else { fs with ex := fun q => if q = p then true else fs.ex q }
  | .createFile p =>
    if (fs.createFail p).isSome then fs
    else { fs with ex := fun q => if q = p then true else fs.ex q }
  | .removeFile p =>
    if (fs.removeFail p).isSome then fs
    else { fs with ex := fun q => if q = p then false else fs.ex q }

/-- State after a sequence of effects. -/
def applyEffs (fs : FS) (l : List Eff) : FS :=
  l.foldl applyEff fs

/-- set_max_jobs from src/cli.rs after parsing: none means the global
rayon pool keeps its hardware-sized default; some j builds a pool of j
threads.  max stands for num_cpus::get(). -/
def set_max_jobs (specified queued max : Nat) : Option Nat :=
  if specified = 0 ∨ specified ≥ max then none
  else some (min specified queued)

/-- The resulting worker-pool size: hardware-sized when no explicit
pool is configured. -/
def pool_size (specified queued max : Nat) : Nat :=
  match set_max_jobs specified queued max with
  | none => max
  | some j => j

/-- str::parse::<usize> from Rust: an optional leading plus sign, then
one or more ASCII digits, rejecting overflow past 2^64. -/
def parse_usize (str : String) : Option Nat :=
  let t := match str.data with
    | '+' :: rest => rest
    | cs => cs
  if t.isEmpty then none
  else if t.all Char.isDigit then
    let n := t.foldl (fun a c => a * 10 + (c.toNat - 48)) 0
    if n < 2 ^ 64 then some n else none
  else none

/-- set_max_jobs as called in src/cli.rs: jobs.parse().unwrap_or_default()
turns an unparsable JOBS string into 0. -/
def set_max_jobs_str (jobs : String) (queued max : Nat) : Option Nat :=
  set_max_jobs ((parse_usize jobs).getD 0) queued max

/-- Pool size reached from the raw JOBS string. -/
def pool_size_str (jobs : String) (queued max : Nat) : Nat :=
  pool_size ((parse_usize jobs).getD 0) queued max

/-- True exactly on the missing variant of the error enum. -/
def Error.isMissing : Error → Bool
  | .missing _ => true
  | _ => false

/- Concrete fixtures used to evaluate the embedding on specific
filesystem configurations. -/

/-- A filesystem on which no path exists. -/
def fsEmpty : FS :=
  ⟨fun _ => false, fun _ => .error .notFound, fun _ => none, fun _ => none,
   fun _ => none, fun _ => none, fun _ => none, fun _ => none, fun _ => none⟩

/-- A filesystem on which only the input files doc.json and doc.hbs
exist; every existing file reads fine. -/
def fsInputsOnly : FS :=
  ⟨fun p => p == "doc.json" || p == "doc.hbs", fun _ => .ok 0, fun _ => none,
   fun _ => none, fun _ => none, fun _ => none, fun _ => none, fun _ => none,
   fun _ => none⟩

/-- Everything exists; doc.rst was modified at 5, doc.hbs at 9, any
other path at 3: the output is older than its template. -/
def fsStale : FS :=
  ⟨fun _ => true,
   fun p => if p == "doc.rst" then .ok 5 else if p == "doc.hbs" then .ok 9 else .ok 3,
   fun _ => none, fun _ => none, fun _ => none, fun _ => none, fun _ => none,
   fun _ => none, fun _ => none⟩

/-- Everything exists; doc.rst was modified at 5, everything else at 3:
the output is newer than both inputs. -/
def fsFresh : FS :=
  ⟨fun _ => true, fun p => if p == "doc.rst" then .ok 5 else .ok 3,
   fun _ => none, fun _ => none, fun _ => none, fun _ => none, fun _ => none,
   fun _ => none, fun _ => none⟩

/-- Everything exists but reading the modification time of doc.rst
fails with error code 13. -/
def fsMtimeErr : FS :=
  ⟨fun _ => true,
   fun p => if p == "doc.rst" then .error (.other 13) else .ok 0,
   fun _ => none, fun _ => none, fun _ => none, fun _ => none, fun _ => none,
   fun _ => none, fun _ => none⟩

/-- Everything exists but removing doc.rst fails with error code 5. -/
def fsRemoveErr : FS :=
  ⟨fun _ => true, fun _ => .ok 0, fun _ => none, fun _ => none, fun _ => none,
   fun p => if p == "doc.rst" then some (.other 5) else none, fun _ => none,
   fun _ => none, fun _ => none⟩

/-- A job whose output lives in a subdirectory. -/
def jobDoc : TemplateDef := ⟨"doc", "doc.json", "doc.hbs", "out/doc.rst"⟩

/-- A job whose output is the plain path doc.rst. -/
def jobLocal : TemplateDef := ⟨"doc", "doc.json", "doc.hbs", "doc.rst"⟩

/-- A job whose data file is absent on fsInputsOnly while its template
file exists there. -/
def jobMissingData : TemplateDef := ⟨"bad", "missing.json", "doc.hbs", "doc.rst"⟩

/-- A second job used for two-element batches. -/
def jobOther : TemplateDef := ⟨"other", "other.json", "other.hbs", "other.rst"⟩

/- Helper lemmas shared by the claim theorems. -/

/-- The logged variant of should_build computes should_build. -/
theorem should_build_eff_fst (fs : FS) (s : TemplateDef) :
    (should_build_eff fs s).1 = should_build fs s := rfl

/-- The logged variant of should_build logs the up_to_date reads. -/
theorem should_build_eff_snd (fs : FS) (s : TemplateDef) :
    (should_build_eff fs s).2 = (up_to_date_eff fs s).2 := rfl

/-- The logged eligibility test computes the eligibility predicate. -/
theorem eligible_eff_fst (fs : FS) (force : Bool) (s : TemplateDef) :
    (eligible_eff fs force s).1 = eligible fs force s := by
  cases force <;>
    simp [eligible_eff, eligible, should_build_eff, should_build, up_to_date]

/-- Every operation up_to_date performs is a read. -/
theorem up_to_date_eff_reads (fs : FS) (s : TemplateDef) :
    ((up_to_date_eff fs s).2).all Eff.isRead = true := by
  unfold up_to_date_eff
  cases fs.ex s.output
  · simp [Eff.isRead]
  · cases fs.mtime s.output
    · simp [Eff.isRead]
    · cases fs.mtime s.data
      · simp [Eff.isRead]
      · cases fs.mtime s.template <;> simp [Eff.isRead]

/-- up_to_date never opens a file, it only checks metadata. -/
theorem up_to_date_eff_no_openRead (fs : FS) (s : TemplateDef) (p : String) :
    Eff.openRead p ∉ (up_to_date_eff fs s).2 := by
  unfold up_to_date_eff
  cases fs.ex s.output
  · simp
  · cases fs.mtime s.output
    · simp
    · cases fs.mtime s.data
      · simp
      · cases fs.mtime s.template <;> simp

/-- A read effect leaves the filesystem state unchanged. -/
theorem applyEff_isRead (fs : FS) (e : Eff) (h : e.isRead = true) :
    applyEff fs e = fs := by
  cases e <;> simp_all [Eff.isRead, applyEff]

/-- A sequence of read effects leaves the filesystem state unchanged. -/
theorem applyEffs_of_reads (l : List Eff) :
    ∀ fs : FS, l.all Eff.isRead = true → applyEffs fs l = fs := by
  induction l with
  | nil => intro fs _; rfl
  | cons e t ih =>
    intro fs h
    rw [List.all_cons, Bool.and_eq_true] at h
    show applyEffs (applyEff fs e) t = fs
    rw [applyEff_isRead fs e h.1]
    exact ih fs h.2

/-- Flattening preserves the all-reads property. -/
theorem all_flatten_reads (L : List (List Eff))
    (h : ∀ l ∈ L, l.all Eff.isRead = true) :
    L.flatten.all Eff.isRead = true := by
  induction L with
  | nil => rfl
  | cons a t ih =>
    rw [List.flatten_cons, List.all_append, Bool.and_eq_true]
    exact ⟨h a (List.mem_cons_self a t),
           ih fun l hl => h l (List.mem_cons_of_mem a hl)⟩

/-- A clean job always logs exactly the removal attempt on its
output, whether or not the removal succeeds. -/
theorem clean_job_effs (fs : FS) (s : TemplateDef) :
    (clean_job fs s).2 = [Eff.removeFile s.output] := by
  unfold clean_job
  cases fs.removeFail s.output <;> rfl

/-- The effect log of a clean batch is one removal per job. -/
theorem clean_effs_eq (fs : FS) (specs : List TemplateDef) :
    clean_effs fs specs = specs.map fun j => Eff.removeFile j.output := by
  unfold clean_effs
  induction specs with
  | nil => rfl
  | cons a t ih =>
    rw [List.map_cons, List.flatten_cons, clean_job_effs, ih, List.map_cons,
      List.singleton_append]

/-- hash_file can only fail with an I/O error. -/
theorem hash_file_eff_not_missing (fs : FS) (p : String) (e : Error)
    (h : (hash_file_eff fs p).1 = .error e) : e.isMissing = false := by
  unfold hash_file_eff at h
  cases ho : fs.openReadRes p <;> rw [ho] at h <;> simp_all
  subst h; rfl

/-- create_root_map can only fail with I/O or JSON errors. -/
theorem create_root_map_eff_not_missing (fs : FS) (s : TemplateDef) (e : Error)
    (h : (create_root_map_eff fs s).1 = .error e) : e.isMissing = false := by
  unfold create_root_map_eff at h
  rcases h1 : hash_file_eff fs s.data with ⟨r1, l1⟩
  rw [h1] at h
  cases r1 with
  | error e1 =>
    simp at h
    exact h ▸ hash_file_eff_not_missing fs s.data e1 (by rw [h1])
  | ok _ =>
    rcases h2 : hash_file_eff fs s.template with ⟨r2, l2⟩
    rw [h2] at h
    cases r2 with
    | error e2 =>
      simp at h
      exact h ▸ hash_file_eff_not_missing fs s.template e2 (by rw [h2])
    | ok _ =>
      cases ho : fs.openReadRes s.data <;> rw [ho] at h
      · cases hj : fs.jsonFail s.data <;> rw [hj] at h <;> simp_all
        subst h; rfl
      · simp_all
        subst h; rfl

/-- with_writer can only fail with I/O, JSON or render errors. -/
theorem with_writer_eff_not_missing (fs : FS) (s : TemplateDef) (e : Error)
    (h : (with_writer_eff fs s).1 = .error e) : e.isMissing = false := by
  unfold with_writer_eff at h
  rcases h1 : create_root_map_eff fs s with ⟨r1, l1⟩
  rw [h1] at h
  cases r1 with
  | error e1 =>
    simp at h
    exact h ▸ create_root_map_eff_not_missing fs s e1 (by rw [h1])
  | ok _ =>
    cases ho : fs.openReadRes s.template <;> rw [ho] at h
    · cases hr : fs.renderFail s.template <;> rw [hr] at h <;> simp_all
      subst h; rfl
    · simp_all
      subst h; rfl

/-- render::with can only fail with I/O, JSON or render errors — never
with the aggregated missing-files error: no validation runs there. -/
theorem with_eff_not_missing (fs : FS) (s : TemplateDef) (e : Error)
    (h : (with_eff fs s).1 = .error e) : e.isMissing = false := by
  unfold with_eff at h
  cases ho : fs.openReadRes s.output <;> rw [ho] at h
  · rcases h1 : with_writer_eff fs s with ⟨r1, l1⟩
    rw [h1] at h
    simp at h
    exact with_writer_eff_not_missing fs s e (by rw [h1]; exact h)
  · simp_all
    subst h; rfl

/-- C1: the claim says every job built by the multigen Generate path
has the rendered bytes written to job.output, with missing parent
directories created first.  Evaluating the code on a job whose output
file does not exist (the very FileMissing case multigen exists to
build), render::with opens job.output read-only, fails with notFound,
and the batch performs no file creation and no directory creation at
all — the job ends failed and nothing is written. -/
theorem C1_multigen_never_creates_output :
    multigen_run fsInputsOnly false [jobDoc] =
      [(jobDoc, .failed (.ioError .notFound))] ∧
    multigen_effs fsInputsOnly false [jobDoc] =
      [.pathExists "out/doc.rst", .openRead "out/doc.rst"] := by decide

/-- C2: the claim says the aggregated validation error mentions every
missing path and never a path that exists.  Evaluating validate_files:
with the data file missing and the template present, the error lists
exactly the template path — the one that exists — and omits the missing
data path; with both files missing the error lists nothing; and when
both exist validation succeeds. -/
theorem C2_validate_files_lists_existing_paths :
    validate_files fsInputsOnly jobMissingData =
      .error ["template file: doc.hbs"] ∧
    validate_files fsEmpty jobMissingData = .error [] ∧
    validate_files fsInputsOnly jobLocal = .ok () := ⟨rfl, rfl, rfl⟩

/-- C3: a job whose output does not exist classifies FileMissing; a job
whose output exists with timestamp o, template timestamp t and data
timestamp d classifies OutOfDate exactly when o is less than t or o is
less than d and UpToDate otherwise; and should_build holds exactly when
the classification is not UpToDate. -/
theorem C3_classify_and_should_build (fs : FS) (s : TemplateDef) :
    (fs.ex s.output = false → up_to_date fs s = .FileMissing) ∧
    (∀ o t d, fs.ex s.output = true → fs.mtime s.output = .ok o →
      fs.mtime s.template = .ok t → fs.mtime s.data = .ok d →
      up_to_date fs s = if o < t ∨ o < d then .OutOfDate else .UpToDate) ∧
    (should_build fs s = true ↔ up_to_date fs s ≠ .UpToDate) := by
  refine ⟨?_, ?_, ?_⟩
  · intro h
    simp [up_to_date, up_to_date_eff, h]
  · intro o t d hex ho ht hd
    simp [up_to_date, up_to_date_eff, hex, ho, ht, hd]
  · unfold should_build
    cases hu : up_to_date fs s <;> simp [hu]

/-- Witness for C3 at concrete filesystems: a missing output is
FileMissing, an output older than its template is OutOfDate and needs
building. -/
theorem C3_witness :
    up_to_date fsInputsOnly jobDoc = .FileMissing ∧
    up_to_date fsStale jobLocal = .OutOfDate ∧
    should_build fsStale jobLocal = true := by
  refine ⟨?_, ?_, ?_⟩
  · exact (C3_classify_and_should_build fsInputsOnly jobDoc).1 (by decide)
  · have h := (C3_classify_and_should_build fsStale jobLocal).2.1 5 9 3
      (by decide) rfl rfl rfl
    rw [h, if_pos (by omega)]
  · exact (C3_classify_and_should_build fsStale jobLocal).2.2.mpr (by decide)

/-- C4: when the output exists, the modification times of output, data
and template are read in that order; the first failing read ends the
evaluation with CannotDetermine carrying that failure and no further
read is attempted; and CannotDetermine, like every status other than
UpToDate, makes should_build true. -/
theorem C4_mtime_read_order_short_circuit (fs : FS) (s : TemplateDef)
    (hex : fs.ex s.output = true) :
    (∀ e, fs.mtime s.output = .error e →
      up_to_date_eff fs s =
        (.CannotDetermine e, [.pathExists s.output, .mtimeRead s.output])) ∧
    (∀ t e, fs.mtime s.output = .ok t → fs.mtime s.data = .error e →
      up_to_date_eff fs s =
        (.CannotDetermine e,
         [.pathExists s.output, .mtimeRead s.output, .mtimeRead s.data])) ∧
    (∀ t u e, fs.mtime s.output = .ok t → fs.mtime s.data = .ok u →
      fs.mtime s.template = .error e →
      up_to_date_eff fs s =
        (.CannotDetermine e,
         [.pathExists s.output, .mtimeRead s.output, .mtimeRead s.data,
          .mtimeRead s.template])) ∧
    (∀ e, up_to_date fs s = .CannotDetermine e → should_build fs s = true) := by
  refine ⟨?_, ?_, ?_, ?_⟩
  · intro e he
    simp [up_to_date_eff, hex, he]
  · intro t e ho he
    simp [up_to_date_eff, hex, ho, he]
  · intro t u e ho hd he
    simp [up_to_date_eff, hex, ho, hd, he]
  · intro e he
    simp [should_build, he]

/-- Witness for C4: a failing metadata read on the output stops the
evaluation after the first timestamp read and forces a build. -/
theorem C4_witness :
    up_to_date_eff fsMtimeErr jobLocal =
      (.CannotDetermine (.other 13),
       [.pathExists "doc.rst", .mtimeRead "doc.rst"]) ∧
    should_build fsMtimeErr jobLocal = true := by
  have h := C4_mtime_read_order_short_circuit fsMtimeErr jobLocal (by decide)
  exact ⟨h.1 (.other 13) rfl, h.2.2.2 (.other 13) (by decide)⟩

/-- The eligibility test performs only reads (nothing when forced, the
up_to_date reads otherwise). -/
theorem eligible_eff_reads (fs : FS) (force : Bool) (s : TemplateDef) :
    ((eligible_eff fs force s).2).all Eff.isRead = true := by
  cases force
  · exact up_to_date_eff_reads fs s
  · rfl

/-- report multigen logs exactly the eligibility reads. -/
theorem report_multigen_job_snd (fs : FS) (force : Bool) (s : TemplateDef) :
    (report_multigen_job fs force s).2 = (eligible_eff fs force s).2 := by
  unfold report_multigen_job
  rcases hee : eligible_eff fs force s with ⟨b, l⟩
  cases b <;> rfl

/-- C5: for Generate and ReportGenerate a job is eligible exactly when
force is set or should_build holds; force makes every job eligible;
an ineligible job ends skipped, is never handed to the Renderer, and
its only effects are the staleness reads; the report line is
would-build exactly for eligible jobs. -/
theorem C5_eligibility_policy (fs : FS) (force : Bool)
    (specs : List TemplateDef) (s : TemplateDef) (hmem : s ∈ specs) :
    (s ∈ multigen_invocations fs force specs ↔
      (force || should_build fs s) = true) ∧
    (force = true → s ∈ multigen_invocations fs force specs) ∧
    (eligible fs force s = false →
      (multigen_job fs force s).1 = .skipped ∧
      s ∉ multigen_invocations fs force specs ∧
      (multigen_job fs force s).2 = (up_to_date_eff fs s).2 ∧
      ∀ p, Eff.openRead p ∉ (multigen_job fs force s).2) ∧
    ((report_multigen_job fs force s).1 =
      if eligible fs force s then "Would build: " ++ s.output
      else "Would skip: " ++ s.output) := by
  refine ⟨?_, ?_, ?_, ?_⟩
  · simp [multigen_invocations, List.mem_filter, hmem, eligible_eff_fst, eligible]
  · intro hforce
    subst hforce
    simp [multigen_invocations, List.mem_filter, hmem, eligible_eff_fst, eligible]
  · intro hne
    cases force with
    | true => simp [eligible] at hne
    | false =>
      have hsb : should_build fs s = false := by simpa [eligible] using hne
      have hee : eligible_eff fs false s =
          (should_build fs s, (up_to_date_eff fs s).2) := rfl
      rw [hsb] at hee
      refine ⟨?_, ?_, ?_, ?_⟩
      · simp [multigen_job, hee]
      · simp [multigen_invocations, List.mem_filter, hee]
      · simp [multigen_job, hee]
      · intro p
        have he2 : (multigen_job fs false s).2 = (up_to_date_eff fs s).2 := by
          simp [multigen_job, hee]
        rw [he2]
        exact up_to_date_eff_no_openRead fs s p
  · rcases hee : eligible_eff fs force s with ⟨b, l⟩
    have hb : b = eligible fs force s := by
      rw [← eligible_eff_fst fs force s, hee]
    cases b <;> simp [report_multigen_job, hee, ← hb]

/-- Witness for C5: a stale job is invoked, force invokes a fresh job,
and without force a fresh job is skipped. -/
theorem C5_witness :
    jobDoc ∈ multigen_invocations fsInputsOnly false [jobDoc] ∧
    jobLocal ∈ multigen_invocations fsFresh true [jobLocal] ∧
    (multigen_job fsFresh false jobLocal).1 = .skipped := by
  refine ⟨?_, ?_, ?_⟩
  · exact (C5_eligibility_policy fsInputsOnly false [jobDoc] jobDoc
      (List.mem_singleton.mpr rfl)).1.mpr (by decide)
  · exact (C5_eligibility_policy fsFresh true [jobLocal] jobLocal
      (List.mem_singleton.mpr rfl)).2.1 rfl
  · exact ((C5_eligibility_policy fsFresh false [jobLocal] jobLocal
      (List.mem_singleton.mpr rfl)).2.2.1 (by decide)).1

/-- C6: clean attempts the removal of every job's output regardless of
staleness or of any other job's failure — the logged removal attempts
are exactly one per job of the batch, unconditionally — and a failed
removal is captured as that job's own outcome. -/
theorem C6_clean_unconditional_and_isolated (fs : FS)
    (specs : List TemplateDef) (s : TemplateDef) (hmem : s ∈ specs) :
    clean_effs fs specs = (specs.map fun j => Eff.removeFile j.output) ∧
    (s, (clean_job fs s).1) ∈ clean_run fs specs ∧
    (∀ e, fs.removeFail s.output = some e →
      (s, .removeFailed e) ∈ clean_run fs specs) ∧
    (fs.removeFail s.output = none →
      (s, .removed) ∈ clean_run fs specs) := by
  refine ⟨clean_effs_eq fs specs, ?_, ?_, ?_⟩
  · exact List.mem_map.mpr ⟨s, hmem, rfl⟩
  · intro e he
    have hj : (clean_job fs s).1 = .removeFailed e := by simp [clean_job, he]
    exact hj ▸ List.mem_map.mpr ⟨s, hmem, rfl⟩
  · intro he
    have hj : (clean_job fs s).1 = .removed := by simp [clean_job, he]
    exact hj ▸ List.mem_map.mpr ⟨s, hmem, rfl⟩

/-- Witness for C6: in a two-job batch whose first removal fails, both
removals are attempted, the failure lands on the first job and the
second job is still removed. -/
theorem C6_witness :
    clean_effs fsRemoveErr [jobLocal, jobOther] =
      [.removeFile "doc.rst", .removeFile "other.rst"] ∧
    (jobLocal, Outcome.removeFailed (.other 5)) ∈
      clean_run fsRemoveErr [jobLocal, jobOther] ∧
    (jobOther, Outcome.removed) ∈ clean_run fsRemoveErr [jobLocal, jobOther] := by
  have h1 := C6_clean_unconditional_and_isolated fsRemoveErr [jobLocal, jobOther]
    jobLocal (List.mem_cons_self jobLocal [jobOther])
  have h2 := C6_clean_unconditional_and_isolated fsRemoveErr [jobLocal, jobOther]
    jobOther (List.mem_cons_of_mem jobLocal (List.mem_singleton.mpr rfl))
  exact ⟨by rw [h1.1]; rfl, h1.2.2.1 (.other 5) rfl, h2.2.2.2 rfl⟩

/-- C7: the three report actions perform only read effects, so the
filesystem state after any of them equals the state before; report
count performs no per-job effect at all. -/
theorem C7_report_actions_mutate_nothing (fs : FS) (force : Bool)
    (specs : List TemplateDef) :
    (report_clean_effs fs specs).all Eff.isRead = true ∧
    applyEffs fs (report_clean_effs fs specs) = fs ∧
    (report_multigen_effs fs force specs).all Eff.isRead = true ∧
    applyEffs fs (report_multigen_effs fs force specs) = fs ∧
    (report_count_run specs).2 = [] ∧
    applyEffs fs (report_count_run specs).2 = fs := by
  have hc : (report_clean_effs fs specs).all Eff.isRead = true := by
    apply all_flatten_reads
    intro l hl
    rw [List.mem_map] at hl
    obtain ⟨j, hj, rfl⟩ := hl
    rfl
  have hm : (report_multigen_effs fs force specs).all Eff.isRead = true := by
    apply all_flatten_reads
    intro l hl
    rw [List.mem_map] at hl
    obtain ⟨j, hj, rfl⟩ := hl
    rw [report_multigen_job_snd]
    exact eligible_eff_reads fs force j
  exact ⟨hc, applyEffs_of_reads _ fs hc, hm, applyEffs_of_reads _ fs hm,
    rfl, rfl⟩

/-- C8: a worker_limit of 0, or one at least the hardware-unit count,
leaves the pool hardware-sized; a positive worker_limit below the
hardware-unit count sizes the pool to the minimum of worker_limit and
the number of queued jobs. -/
theorem C8_worker_pool_sizing (specified queued max : Nat) :
    ((specified = 0 ∨ specified ≥ max) →
      pool_size specified queued max = max) ∧
    (0 < specified → specified < max →
      pool_size specified queued max = min specified queued) := by
  constructor
  · intro h
    unfold pool_size set_max_jobs
    rw [if_pos h]
  · intro h1 h2
    unfold pool_size set_max_jobs
    rw [if_neg (by omega)]

/-- Witness for C8: limit 0 → 4 hardware units, limit 100 on 4 units →
4, limit 2 with 10 jobs on 4 units → 2. -/
theorem C8_witness :
    pool_size 0 10 4 = 4 ∧ pool_size 100 10 4 = 4 ∧ pool_size 2 10 4 = 2 := by
  refine ⟨(C8_worker_pool_sizing 0 10 4).1 (Or.inl rfl),
    (C8_worker_pool_sizing 100 10 4).1 (Or.inr (by omega)), ?_⟩
  have h := (C8_worker_pool_sizing 2 10 4).2 (by omega) (by omega)
  rw [h]
  omega

/-- C9: existence validation runs only in the single-job generate path
(which fails with the aggregated missing error before touching the
Renderer), while the batch paths schedule every deserialized job with
no pre-scheduling existence check: a job whose validation would fail
still gets an outcome, is still handed to the Renderer when eligible,
is still cleaned, and no batch outcome ever carries a missing error. -/
theorem C9_no_batch_validation (fs : FS) (force : Bool)
    (specs : List TemplateDef) (s : TemplateDef) (m : List String)
    (hmem : s ∈ specs) (hval : validate_files fs s = .error m) :
    generate_eff fs s.data s.template "-" =
      (.error (.missing m), [.pathExists s.data, .pathExists s.template]) ∧
    (s, (multigen_job fs force s).1) ∈ multigen_run fs force specs ∧
    (eligible fs force s = true → s ∈ multigen_invocations fs force specs) ∧
    (s, (clean_job fs s).1) ∈ clean_run fs specs ∧
    (∀ j ∈ specs, ∀ ms, (multigen_job fs force j).1 ≠ .failed (.missing ms)) := by
  have hval' : validate_files fs
      (TemplateDef.mk "Anonymous" s.data s.template "-") = .error m := hval
  refine ⟨?_, ?_, ?_, ?_, ?_⟩
  · simp [generate_eff, box_writer_eff, hval']
  · exact List.mem_map.mpr ⟨s, hmem, rfl⟩
  · intro he
    simp [multigen_invocations, List.mem_filter, hmem, eligible_eff_fst, he]
  · exact List.mem_map.mpr ⟨s, hmem, rfl⟩
  · intro j hj ms
    unfold multigen_job
    rcases hee : eligible_eff fs force j with ⟨b, l⟩
    cases b
    · simp
    · rcases hw : with_eff fs j with ⟨r, l2⟩
      cases r with
      | ok _ => simp
      | error e =>
        simp only [ne_eq]
        intro hcontra
        have heq : e = .missing ms := by injection hcontra
        have hnm := with_eff_not_missing fs j e (by rw [hw])
        rw [heq] at hnm
        simp [Error.isMissing] at hnm

/-- Witness for C9: on an empty filesystem, single-job generate fails
with the (empty, per the validation bug) missing error and touches
nothing else, while multigen and clean still schedule the same job. -/
theorem C9_witness :
    generate_eff fsEmpty "doc.json" "doc.hbs" "-" =
      (.error (.missing []), [.pathExists "doc.json", .pathExists "doc.hbs"]) ∧
    (jobDoc, Outcome.failed (.ioError .notFound)) ∈
      multigen_run fsEmpty true [jobDoc] ∧
    (jobDoc, Outcome.removed) ∈ clean_run fsEmpty [jobDoc] := by
  have h := C9_no_batch_validation fsEmpty true [jobDoc] jobDoc []
    (List.mem_singleton.mpr rfl) rfl
  refine ⟨h.1, ?_, ?_⟩
  · have hj : (multigen_job fsEmpty true jobDoc).1 =
        .failed (.ioError .notFound) := by decide
    exact hj ▸ h.2.1
  · have hj : (clean_job fsEmpty jobDoc).1 = .removed := by decide
    exact hj ▸ h.2.2.2.1

/-- C10: a JOBS string that does not parse as an unsigned integer is
treated as 0 — no pool is configured, leaving the hardware-sized
default — instead of being rejected. -/
theorem C10_unparsable_jobs_treated_as_zero (jobs : String)
    (queued max : Nat) (h : parse_usize jobs = none) :
    set_max_jobs_str jobs queued max = none ∧
    pool_size_str jobs queued max = max := by
  constructor
  · simp [set_max_jobs_str, set_max_jobs, h]
  · simp [pool_size_str, pool_size, set_max_jobs, h]

/-- Witness for C10: the non-numeric JOBS value abc yields the
hardware-sized pool on a 4-unit host. -/
theorem C10_witness :
    set_max_jobs_str "abc" 10 4 = none ∧ pool_size_str "abc" 10 4 = 4 :=
  C10_unparsable_jobs_treated_as_zero "abc" 10 4 (by decide)

end Ttgen
